import Mathlib

/-!
Verification development for the per-sheet row-classification and
section-assembly pass of `lambda_function.py` (the body of
`lambda_handler` that turns one sheet's cleaned rows into a mapping from
section keys to section contents).

The embedding mirrors the Python source:
* a cell value is text, a number (modelled as an integer), a temporal
  value (modelled by its string form), or null;
* Python dictionaries are insertion-ordered association lists with
  update-in-place semantics (`dictSet`);
* every point where the Python code would raise an exception
  (`AttributeError` on `.append`/`.extend` of a non-list, `KeyError` on a
  missing section key) is modelled by `Option.none`.
-/

/-- A spreadsheet cell value as seen by the parser. Numbers are modelled
as integers; a temporal value is carried as the string Python's `str`
would render it to. -/
inductive Cell where
  | null
  | text (s : String)
  | num (n : Int)
  | temporal (t : String)
deriving DecidableEq, Repr

/-- Python `str(cell)`. `str(None) = "None"`; text and temporal values
render as themselves; integers render in decimal. -/
def cellStr : Cell → String
  | Cell.null => "None"
  | Cell.text s => s
  | Cell.num n => toString n
  | Cell.temporal t => t

/-- Python `isinstance(cell, str)`. -/
def Cell.isStr : Cell → Bool
  | Cell.text _ => true
  | _ => false

/-- Python `isinstance(cell, (int, float))`. -/
def Cell.isNum : Cell → Bool
  | Cell.num _ => true
  | _ => false

/-- Python `s.strip()`: drop leading and trailing whitespace. -/
def recortar (s : String) : String :=
  String.mk (((s.toList.dropWhile Char.isWhitespace).reverse.dropWhile Char.isWhitespace).reverse)

/-- Python `s.lower()` (per-character lowering). -/
def minusculas (s : String) : String :=
  String.mk (s.toList.map Char.toLower)

/-- `str(x).strip().lower()` — the form the source uses for the
low-information-literal and label-suffix checks. -/
def bajar (s : String) : String := minusculas (recortar s)

/-- Key/header normalization from the source:
`.strip().lower().replace(" ", "_")`. -/
def normalizar (s : String) : String :=
  String.mk ((bajar s).toList.map (fun ch => if ch = ' ' then '_' else ch))

/-- `s.endswith(('_id', '_name', '_code'))`. -/
def terminaEnSufijo (s : String) : Bool :=
  List.isSuffixOf "_id".toList s.toList ||
  List.isSuffixOf "_name".toList s.toList ||
  List.isSuffixOf "_code".toList s.toList

/-- `cell is not None and str(cell).strip() != ""` — the non-blank test
used for lookahead rows and table-record values. -/
def celdaNoVacia : Cell → Bool
  | Cell.null => false
  | c => recortar (cellStr c) != ""

/-- The filter of the row-cleaning list comprehension (line 84):
`cell is not None and (isinstance(cell, str) and cell.strip() != "" or not isinstance(cell, str))`. -/
def conservarCelda : Cell → Bool
  | Cell.null => false
  | Cell.text s => recortar s != ""
  | _ => true

/-- Row cleaning applied to one raw row. -/
def limpiarFila (fila : List Cell) : List Cell :=
  fila.filter conservarCelda

/-- Row cleaning for a sheet: clean each row, keep only non-empty results
(lines 82–86). -/
def limpiarFilas (filas : List (List Cell)) : List (List Cell) :=
  (filas.map limpiarFila).filter (fun r => !r.isEmpty)

/-- A value stored under a key of a metadata mapping or of a record:
either a single cell value or a list of cell values (the
`valores_miscelaneos` bucket and the `valores` wrapper hold lists). -/
inductive DVal where
  | cell (c : Cell)
  | list (cs : List Cell)
deriving DecidableEq, Repr

/-- An element of a list-typed section: a record (a small string-keyed
dictionary) or a raw row (appended verbatim by the sentinel branch). -/
inductive Item where
  | reg (m : List (String × DVal))
  | row (r : List Cell)
deriving DecidableEq, Repr

/-- A section's content: a metadata mapping or a list of items. -/
inductive SectVal where
  | dict (m : List (String × DVal))
  | list (items : List Item)
deriving DecidableEq, Repr

/-- Lookup in an insertion-ordered dictionary. -/
def dictGet : List (String × α) → String → Option α
  | [], _ => none
  | p :: m, k => if p.1 == k then some p.2 else dictGet m k

/-- Python `k in d`. -/
def dictContains : List (String × α) → String → Bool
  | [], _ => false
  | p :: m, k => p.1 == k || dictContains m k

/-- Replace the value stored under an existing key, keeping its
position. -/
def dictReemplazar : List (String × α) → String → α → List (String × α)
  | [], _, _ => []
  | p :: m, k, v => (if p.1 == k then (k, v) else p) :: dictReemplazar m k v

/-- Python `d[k] = v`: update in place if the key exists (keeping its
position), otherwise append at the end. -/
def dictSet (m : List (String × α)) (k : String) (v : α) : List (String × α) :=
  if dictContains m k then dictReemplazar m k v else m ++ [(k, v)]

/-- The running state of the per-sheet pass (lines 88–92). -/
structure PState where
  datos : List (String × SectVal)
  seccion : Option String
  seccionId : Nat
  headers : List String
  inTable : Bool
deriving DecidableEq, Repr

def estadoInicial : PState :=
  { datos := [], seccion := none, seccionId := 1, headers := [], inTable := false }

/-- The reserved no-section key. -/
def claveSinSeccion : String := "sin_seccion"

/-- Section names for which header detection is forced (line 122). -/
def seccionesConTabla : List String :=
  ["error_de_relación_de_corriente_en_%_a_%_de_corriente_nominal",
   "fase_en_min_a_%_de_la_corriente_nominal",
   "datos_medidos"]

/-- Low-information literals that disqualify a key candidate (line 157). -/
def literalesNoClave : List String :=
  ["ok", "si", "no", "desactivado", "protección", "ubicación", "colombia", "g3.2"]

/-- Python truthiness of `seccion_actual` (None or the empty string are
falsy). -/
def seccionAbierta (st : PState) : Bool :=
  (st.seccion.getD "") != ""

/-- The row the one-row lookahead sees. -/
def filaSiguiente (rest : List (List Cell)) : List Cell :=
  rest.headD []

/-- `next_row_is_likely_data` (lines 115–120): the following row is
non-empty, has some non-blank cell, and is not a single-cell text row
whose normalization differs from the sentinel. -/
def filaProbableDatos (next : List Cell) : Bool :=
  (!next.isEmpty) && next.any celdaNoVacia &&
  !(match next with
    | [Cell.text s] => normalizar s != claveSinSeccion
    | _ => false)

/-- The header decision (line 122): lookahead looks like data, or the
current section is in the allow-list and no headers are fixed yet. -/
def detectaCabecera (sec : String) (headers : List String) (next : List Cell) : Bool :=
  filaProbableDatos next || (seccionesConTabla.contains sec && headers.isEmpty)

/-- Walk a row two cells at a time; an odd trailing cell gets `None` as
its value candidate (lines 149–153). -/
def enPares : List Cell → List (Cell × Cell)
  | [] => []
  | [k] => [(k, Cell.null)]
  | k :: v :: rest => (k, v) :: enPares rest

/-- The key-candidate rejection test (lines 155–159), exactly as coded:
numeric keys are rejected; text keys are rejected when the raw text is
longer than 50 characters, or its stripped lowering is a low-information
literal, or it strips to empty, or the value is absent and the stripped
lowering does not end in `_id`/`_name`/`_code`. Any other key (null or
temporal) passes. -/
def claveInvalida (k v : Cell) : Bool :=
  k.isNum ||
  (k.isStr &&
    (decide ((cellStr k).length > 50) ||
     literalesNoClave.contains (bajar (cellStr k)) ||
     (recortar (cellStr k) == "") ||
     (v == Cell.null && !terminaEnSufijo (bajar (cellStr k)))))

/-- The key/value loop of the metadata branch (lines 148–176). Rejected
pairs are written into the section at once (`valores_miscelaneos` for a
mapping section, a one-entry record for a list section); accepted pairs
accumulate in `subdata` for a mapping section and are appended as
one-entry records for a list section. `none` models the Python
exceptions: `.extend` on a non-list miscellaneous slot and `.append`
through a missing section key. -/
def procesarPares (sec : String) :
    List (Cell × Cell) → List (String × SectVal) → List (String × DVal) →
    Option (List (String × SectVal) × List (String × DVal))
  | [], datos, subdata => some (datos, subdata)
  | (k, v) :: rest, datos, subdata =>
    if claveInvalida k v then
      match dictGet datos sec with
      | some (SectVal.dict m) =>
        match dictGet m "valores_miscelaneos" with
        | some (DVal.list cs) =>
          procesarPares sec rest
            (dictSet datos sec (SectVal.dict (dictSet m "valores_miscelaneos" (DVal.list (cs ++ [k, v]))))) subdata
        | some (DVal.cell _) => none
        | none =>
          procesarPares sec rest
            (dictSet datos sec (SectVal.dict (dictSet m "valores_miscelaneos" (DVal.list [k, v])))) subdata
      | some (SectVal.list items) =>
        procesarPares sec rest
          (dictSet datos sec (SectVal.list (items ++ [Item.reg [("valores_miscelaneos", DVal.list [k, v])]]))) subdata
      | none => none
    else
      match dictGet datos sec with
      | some (SectVal.dict _) =>
        procesarPares sec rest datos (dictSet subdata (normalizar (cellStr k)) (DVal.cell v))
      | some (SectVal.list items) =>
        procesarPares sec rest
          (dictSet datos sec (SectVal.list (items ++ [Item.reg [(normalizar (cellStr k), DVal.cell v)]]))) subdata
      | none => none

/-- `if subdata: if isinstance(..., dict): .update(subdata)`
(lines 178–180). -/
def aplicarSubdata (datos : List (String × SectVal)) (sec : String)
    (subdata : List (String × DVal)) : List (String × SectVal) :=
  if subdata.isEmpty then datos
  else
    match dictGet datos sec with
    | some (SectVal.dict m) =>
      dictSet datos sec (SectVal.dict (subdata.foldl (fun acc p => dictSet acc p.1 p.2) m))
    | _ => datos

/-- Build a table record: pair each header with the cell at its index, or
null when the row is shorter (lines 133–138). Stored through `dictSet`
because `row_data` is a Python dict. -/
def construirRegistroAux (fila : List Cell) :
    List String → Nat → List (String × DVal) → List (String × DVal)
  | [], _, acc => acc
  | h :: hs, idx, acc =>
    construirRegistroAux fila hs (idx + 1) (dictSet acc h (DVal.cell (fila.getD idx Cell.null)))

def construirRegistro (headers : List String) (fila : List Cell) : List (String × DVal) :=
  construirRegistroAux fila headers 0 []

/-- `value is not None and str(value).strip() != ""` over a stored value
(line 140); a list value stringifies to a non-blank `[...]`. -/
def dvalNoVacio : DVal → Bool
  | DVal.cell c => celdaNoVacia c
  | DVal.list _ => true

/-- The clean key/value reading a no-section row may get (lines 187–202):
every key position must be non-empty text. -/
def clavesValoresAux : List (Cell × Cell) → List (String × DVal) →
    Option (List (String × DVal))
  | [], acc => some acc
  | (k, v) :: rest, acc =>
    match k with
    | Cell.text s =>
      if recortar s != "" then clavesValoresAux rest (dictSet acc (normalizar s) (DVal.cell v))
      else none
    | _ => none

/-- The entry appended to `sin_seccion` for a row with no open section
(lines 185–208). -/
def entradaSinSeccion (fila : List Cell) : Item :=
  if fila.length % 2 == 0 then
    match clavesValoresAux (enPares fila) [] with
    | some m => if m.isEmpty then Item.reg [("valores", DVal.list fila)] else Item.reg m
    | none => Item.reg [("valores", DVal.list fila)]
  else Item.reg [("valores", DVal.list fila)]

/-- `datos.setdefault("sin_seccion", []).append(item)`; `none` models the
`AttributeError` raised when `sin_seccion` is a mapping section. -/
def agregarSinSeccion (datos : List (String × SectVal)) (item : Item) :
    Option (List (String × SectVal)) :=
  match dictGet datos claveSinSeccion with
  | some (SectVal.list items) => some (dictSet datos claveSinSeccion (SectVal.list (items ++ [item])))
  | some (SectVal.dict _) => none
  | none => some (dictSet datos claveSinSeccion (SectVal.list [item]))

/-- The data stage (lines 130–210): the `if seccion_actual:` statement
that runs after the new-section/header `if`/`elif` whenever those did not
`continue`. -/
def procesarDatos (st : PState) (fila : List Cell) : Option PState :=
  if seccionAbierta st then
    match st.seccion with
    | some sec =>
      if st.inTable && !st.headers.isEmpty then
        if (construirRegistro st.headers fila).any (fun p => dvalNoVacio p.2) then
          match dictGet st.datos sec with
          | some (SectVal.list items) =>
            some { st with datos := dictSet st.datos sec (SectVal.list (items ++ [Item.reg (construirRegistro st.headers fila)])) }
          | _ => none
        else some st
      else
        match procesarPares sec (enPares fila) st.datos [] with
        | some (datos1, subdata) => some { st with datos := aplicarSubdata datos1 sec subdata }
        | none => none
    | none => none
  else
    match agregarSinSeccion st.datos (entradaSinSeccion fila) with
    | some d => some { st with datos := d }
    | none => none

/-- The single-cell branch (lines 96–111): sentinel rows with no open
section go to the bucket verbatim; otherwise a section is registered
(suffixed on collision) and — because the source has no `continue`
there — the same row then runs through the data stage of its new
section. -/
def procesarSeccionNueva (st : PState) (c : Cell) : Option PState :=
  if normalizar (cellStr c) == claveSinSeccion && !seccionAbierta st then
    match agregarSinSeccion st.datos (Item.row [c]) with
    | some d => some { st with datos := d }
    | none => none
  else if dictContains st.datos (normalizar (cellStr c)) then
    procesarDatos
      { datos := dictSet st.datos (normalizar (cellStr c) ++ "_" ++ Nat.repr st.seccionId) (SectVal.dict []),
        seccion := some (normalizar (cellStr c) ++ "_" ++ Nat.repr st.seccionId),
        seccionId := st.seccionId + 1, headers := [], inTable := false } [c]
  else
    procesarDatos
      { datos := dictSet st.datos (normalizar (cellStr c)) (SectVal.dict []),
        seccion := some (normalizar (cellStr c)),
        seccionId := st.seccionId, headers := [], inTable := false } [c]

/-- Lines 125–126: ensure the section content is a list before table rows
are appended (converting from whatever it was). -/
def datosCabecera (datos : List (String × SectVal)) (sec : String) : List (String × SectVal) :=
  match dictGet datos sec with
  | some (SectVal.list _) => datos
  | _ => dictSet datos sec (SectVal.list [])

/-- One iteration of the row loop (lines 94–210). A row that is not
single-cell first meets the header `elif`; when the header decision is
positive the row is consumed (`continue`), otherwise it falls through to
the data stage. -/
def procesarFila (st : PState) (fila : List Cell) (rest : List (List Cell)) : Option PState :=
  match fila with
  | [c] => procesarSeccionNueva st c
  | _ =>
    match st.seccion with
    | some sec =>
      if (sec != "") && decide (fila.length > 1) && fila.all Cell.isStr && !rest.isEmpty
          && detectaCabecera sec st.headers (filaSiguiente rest) then
        some { st with datos := datosCabecera st.datos sec,
                       headers := fila.map (fun c => normalizar (cellStr c)),
                       inTable := true }
      else procesarDatos st fila
    | none => procesarDatos st fila

/-- The whole pass over a sheet's cleaned rows, threading the one-row
lookahead. -/
def procesarFilas : PState → List (List Cell) → Option PState
  | st, [] => some st
  | st, fila :: rest =>
    match procesarFila st fila rest with
    | some st1 => procesarFilas st1 rest
    | none => none

/-- Per-sheet pipeline: row cleaning followed by the pass. -/
def procesarHoja (filas : List (List Cell)) : Option PState :=
  procesarFilas estadoInicial (limpiarFilas filas)

/-! ### Dictionary lemmas -/

theorem dictSet_eq_reemplazar (m : List (String × α)) (k : String) (v : α)
    (h : dictContains m k = true) : dictSet m k v = dictReemplazar m k v := by
  unfold dictSet; rw [if_pos h]

theorem dictSet_eq_append (m : List (String × α)) (k : String) (v : α)
    (h : dictContains m k = false) : dictSet m k v = m ++ [(k, v)] := by
  unfold dictSet; rw [if_neg (by simp [h])]

theorem dictGet_eq_none (m : List (String × α)) (k : String)
    (h : dictContains m k = false) : dictGet m k = none := by
  induction m with
  | nil => rfl
  | cons p m ih =>
    simp only [dictContains, Bool.or_eq_false_iff] at h
    simp only [dictGet, h.1, Bool.false_eq_true, if_false]
    exact ih h.2

theorem dictGet_reemplazar_self (m : List (String × α)) (k : String) (v : α)
    (h : dictContains m k = true) : dictGet (dictReemplazar m k v) k = some v := by
  induction m with
  | nil => simp [dictContains] at h
  | cons p m ih =>
    by_cases hp : p.1 = k
    · simp [dictReemplazar, dictGet, hp]
    · simp only [dictContains] at h
      rw [show (p.1 == k) = false by simpa using hp] at h
      simp only [Bool.false_or] at h
      simp [dictReemplazar, dictGet, hp, ih h]

theorem dictGet_reemplazar_ne (m : List (String × α)) (k k' : String) (v : α)
    (h : k' ≠ k) : dictGet (dictReemplazar m k v) k' = dictGet m k' := by
  induction m with
  | nil => rfl
  | cons p m ih =>
    have hkk' : ¬ k = k' := fun hh => h hh.symm
    by_cases hp : p.1 = k
    · simp [dictReemplazar, dictGet, hp, hkk', ih]
    · simp [dictReemplazar, dictGet, hp, ih]

theorem dictGet_append_uno (m : List (String × α)) (k : String) (v : α)
    (h : dictGet m k = none) : dictGet (m ++ [(k, v)]) k = some v := by
  induction m with
  | nil => simp [dictGet]
  | cons p m ih =>
    by_cases hp : p.1 = k
    · simp [dictGet, hp] at h
    · simp only [dictGet, show (p.1 == k) = false by simpa using hp,
        Bool.false_eq_true, if_false] at h
      simp [dictGet, hp, ih h]

theorem dictGet_append_uno_ne (m : List (String × α)) (k k' : String) (v : α)
    (h : k' ≠ k) : dictGet (m ++ [(k, v)]) k' = dictGet m k' := by
  induction m with
  | nil =>
    have hkk' : ¬ k = k' := fun hh => h hh.symm
    simp [dictGet, hkk']
  | cons p m ih =>
    by_cases hp : p.1 = k'
    · simp [dictGet, hp]
    · simp [dictGet, hp, ih]

theorem dictGet_dictSet_self (m : List (String × α)) (k : String) (v : α) :
    dictGet (dictSet m k v) k = some v := by
  by_cases h : dictContains m k
  · rw [dictSet_eq_reemplazar m k v h]
    exact dictGet_reemplazar_self m k v h
  · have hf : dictContains m k = false := by simpa using h
    rw [dictSet_eq_append m k v hf]
    exact dictGet_append_uno m k v (dictGet_eq_none m k hf)

theorem dictGet_dictSet_ne (m : List (String × α)) (k k' : String) (v : α)
    (h : k' ≠ k) : dictGet (dictSet m k v) k' = dictGet m k' := by
  by_cases hc : dictContains m k
  · rw [dictSet_eq_reemplazar m k v hc]
    exact dictGet_reemplazar_ne m k k' v h
  · rw [dictSet_eq_append m k v (by simpa using hc)]
    exact dictGet_append_uno_ne m k k' v h

theorem claves_reemplazar (m : List (String × α)) (k : String) (v : α) :
    (dictReemplazar m k v).map Prod.fst = m.map Prod.fst := by
  induction m with
  | nil => rfl
  | cons p m ih =>
    by_cases hp : p.1 = k
    · simp [dictReemplazar, hp, ih]
    · simp [dictReemplazar, hp, ih]

theorem claves_dictSet (m : List (String × α)) (k : String) (v : α) :
    (dictSet m k v).map Prod.fst =
      if dictContains m k then m.map Prod.fst else m.map Prod.fst ++ [k] := by
  by_cases h : dictContains m k
  · rw [dictSet_eq_reemplazar m k v h, if_pos h]
    exact claves_reemplazar m k v
  · rw [dictSet_eq_append m k v (by simpa using h), if_neg h]
    simp

theorem dictContains_claves (m : List (String × α)) (k : String) :
    dictContains m k = (m.map Prod.fst).any (fun s => s == k) := by
  induction m with
  | nil => rfl
  | cons p m ih => simp [dictContains, ih]

theorem no_mem_of_dictContains_false (m : List (String × α)) (k : String)
    (h : dictContains m k = false) : k ∉ m.map Prod.fst := by
  rw [dictContains_claves] at h
  simp only [List.any_eq_false, beq_iff_eq] at h
  intro hm
  exact h k hm rfl

theorem dictContains_dictSet_self (m : List (String × α)) (k : String) (v : α) :
    dictContains (dictSet m k v) k = true := by
  rw [dictContains_claves, claves_dictSet]
  by_cases h : dictContains m k
  · rw [if_pos h, ← dictContains_claves]
    exact h
  · simp [h]

theorem dictContains_dictSet_mono (m : List (String × α)) (k k' : String) (v : α)
    (h : dictContains m k' = true) : dictContains (dictSet m k v) k' = true := by
  rw [dictContains_claves, claves_dictSet]
  rw [dictContains_claves] at h
  by_cases hc : dictContains m k
  · rw [if_pos hc]; exact h
  · rw [if_neg hc]
    simp only [List.any_append, h, Bool.true_or]

theorem nodup_dictSet (m : List (String × α)) (k : String) (v : α)
    (h : (m.map Prod.fst).Nodup) : ((dictSet m k v).map Prod.fst).Nodup := by
  rw [claves_dictSet]
  by_cases hc : dictContains m k
  · rw [if_pos hc]; exact h
  · rw [if_neg hc]
    have := no_mem_of_dictContains_false m k (by simpa using hc)
    simp [List.nodup_append, h, this]

theorem reemplazar_id (m : List (String × α)) (k : String) (v : α)
    (h : dictContains m k = false) : dictReemplazar m k v = m := by
  induction m with
  | nil => rfl
  | cons p m ih =>
    simp only [dictContains, Bool.or_eq_false_iff] at h
    have hp : ¬ p.1 = k := by simpa using h.1
    simp [dictReemplazar, hp, ih h.2]

theorem reemplazar_append (a b : List (String × α)) (k : String) (v : α) :
    dictReemplazar (a ++ b) k v = dictReemplazar a k v ++ dictReemplazar b k v := by
  induction a with
  | nil => rfl
  | cons p a ih => simp [dictReemplazar, ih]

theorem reemplazar_reemplazar (m : List (String × α)) (k : String) (v w : α) :
    dictReemplazar (dictReemplazar m k v) k w = dictReemplazar m k w := by
  induction m with
  | nil => rfl
  | cons p m ih =>
    by_cases hp : p.1 = k
    · simp [dictReemplazar, hp, ih]
    · simp [dictReemplazar, hp, ih]

theorem dictSet_dictSet_self (m : List (String × α)) (k : String) (v w : α) :
    dictSet (dictSet m k v) k w = dictSet m k w := by
  by_cases hc : dictContains m k
  · have hc2 : dictContains (dictReemplazar m k v) k = true := by
      rw [← dictSet_eq_reemplazar m k v hc]
      exact dictContains_dictSet_self m k v
    rw [dictSet_eq_reemplazar m k v hc, dictSet_eq_reemplazar _ _ w hc2,
        reemplazar_reemplazar, dictSet_eq_reemplazar m k w hc]
  · have hf : dictContains m k = false := by simpa using hc
    have hc2 : dictContains (m ++ [(k, v)]) k = true := by
      rw [← dictSet_eq_append m k v hf]
      exact dictContains_dictSet_self m k v
    rw [dictSet_eq_append m k v hf, dictSet_eq_reemplazar _ _ w hc2,
        reemplazar_append, reemplazar_id m k w hf, dictSet_eq_append m k w hf]
    simp [dictReemplazar]

/-! ### Characterization lemmas for the parser stages -/

theorem procesarFila_unica (st : PState) (c : Cell) (rest : List (List Cell)) :
    procesarFila st [c] rest = procesarSeccionNueva st c := rfl

theorem procesarFila_ultima (st : PState) (fila : List Cell) (hlen : fila.length ≠ 1) :
    procesarFila st fila [] = procesarDatos st fila := by
  cases fila with
  | nil => cases hst : st.seccion <;> simp [procesarFila, hst]
  | cons a t =>
    cases t with
    | nil => simp at hlen
    | cons b t2 => cases hst : st.seccion <;> simp [procesarFila, hst]

theorem procesarFila_no_texto (st : PState) (fila : List Cell) (rest : List (List Cell))
    (hlen : fila.length ≠ 1) (hstr : fila.all Cell.isStr = false) :
    procesarFila st fila rest = procesarDatos st fila := by
  cases fila with
  | nil => simp [List.all_nil] at hstr
  | cons a t =>
    cases t with
    | nil => simp at hlen
    | cons b t2 => cases hst : st.seccion <;> simp [procesarFila, hst, hstr]

theorem procesarFila_cabecera (st : PState) (s : String) (fila : List Cell)
    (rest : List (List Cell)) (h1 : st.seccion = some s) (h2 : s ≠ "")
    (hlen : 1 < fila.length) (hstr : fila.all Cell.isStr = true) (hrest : rest ≠ [])
    (hdet : detectaCabecera s st.headers (filaSiguiente rest) = true) :
    procesarFila st fila rest =
      some { st with
             datos := datosCabecera st.datos s,
             headers := fila.map (fun c => normalizar (cellStr c)),
             inTable := true } := by
  cases fila with
  | nil => simp at hlen
  | cons a t =>
    cases t with
    | nil => simp at hlen
    | cons b t2 =>
      have hre : rest.isEmpty = false := by
        cases rest with
        | nil => exact absurd rfl hrest
        | cons x xs => rfl
      simp [procesarFila, h1, h2, hstr, hre, hdet, hlen]

theorem procesarFila_sin_cabecera (st : PState) (s : String) (fila : List Cell)
    (rest : List (List Cell)) (h1 : st.seccion = some s)
    (hdet : detectaCabecera s st.headers (filaSiguiente rest) = false)
    (hlen : fila.length ≠ 1) :
    procesarFila st fila rest = procesarDatos st fila := by
  cases fila with
  | nil => cases hst : st.seccion <;> simp [procesarFila, hst, h1, hdet]
  | cons a t =>
    cases t with
    | nil => simp at hlen
    | cons b t2 => simp [procesarFila, h1, hdet]

theorem procesarDatos_metadata (st : PState) (s : String) (fila : List Cell)
    (h1 : st.seccion = some s) (h2 : s ≠ "")
    (h3 : (st.inTable && !st.headers.isEmpty) = false) :
    procesarDatos st fila =
      match procesarPares s (enPares fila) st.datos [] with
      | some (d, sub) => some { st with datos := aplicarSubdata d s sub }
      | none => none := by
  have ho : seccionAbierta st = true := by simp [seccionAbierta, h1, h2]
  unfold procesarDatos
  simp [ho, h1, h3]

theorem procesarDatos_tabla (st : PState) (s : String) (items : List Item)
    (fila : List Cell) (h1 : st.seccion = some s) (h2 : s ≠ "")
    (h3 : st.inTable = true) (h4 : st.headers.isEmpty = false)
    (h5 : dictGet st.datos s = some (SectVal.list items)) :
    procesarDatos st fila =
      if (construirRegistro st.headers fila).any (fun p => dvalNoVacio p.2)
      then some { st with datos := dictSet st.datos s (SectVal.list (items ++ [Item.reg (construirRegistro st.headers fila)])) }
      else some st := by
  have ho : seccionAbierta st = true := by simp [seccionAbierta, h1, h2]
  unfold procesarDatos
  simp only [ho, if_true, h1, h3, h4, Bool.not_false, Bool.and_self, if_true, h5]

theorem procesarDatos_sinSeccion (st : PState) (fila : List Cell)
    (h : seccionAbierta st = false) :
    procesarDatos st fila =
      match agregarSinSeccion st.datos (entradaSinSeccion fila) with
      | some d => some { st with datos := d }
      | none => none := by
  unfold procesarDatos
  simp [h]

theorem pares_nil (sec : String) (datos : List (String × SectVal))
    (subdata : List (String × DVal)) :
    procesarPares sec [] datos subdata = some (datos, subdata) := rfl

theorem pares_acepta (sec : String) (k v : Cell) (rest : List (Cell × Cell))
    (datos : List (String × SectVal)) (subdata m : List (String × DVal))
    (hk : claveInvalida k v = false) (hd : dictGet datos sec = some (SectVal.dict m)) :
    procesarPares sec ((k, v) :: rest) datos subdata =
      procesarPares sec rest datos (dictSet subdata (normalizar (cellStr k)) (DVal.cell v)) := by
  conv_lhs => rw [procesarPares.eq_def]
  simp [hk, hd]

theorem pares_rechaza_nuevo (sec : String) (k v : Cell) (rest : List (Cell × Cell))
    (datos : List (String × SectVal)) (subdata m : List (String × DVal))
    (hk : claveInvalida k v = true) (hd : dictGet datos sec = some (SectVal.dict m))
    (hm : dictGet m "valores_miscelaneos" = none) :
    procesarPares sec ((k, v) :: rest) datos subdata =
      procesarPares sec rest
        (dictSet datos sec (SectVal.dict (dictSet m "valores_miscelaneos" (DVal.list [k, v]))))
        subdata := by
  conv_lhs => rw [procesarPares.eq_def]
  simp [hk, hd, hm]

theorem pares_rechaza_acumula (sec : String) (k v : Cell) (rest : List (Cell × Cell))
    (datos : List (String × SectVal)) (subdata m : List (String × DVal)) (cs : List Cell)
    (hk : claveInvalida k v = true) (hd : dictGet datos sec = some (SectVal.dict m))
    (hm : dictGet m "valores_miscelaneos" = some (DVal.list cs)) :
    procesarPares sec ((k, v) :: rest) datos subdata =
      procesarPares sec rest
        (dictSet datos sec (SectVal.dict (dictSet m "valores_miscelaneos" (DVal.list (cs ++ [k, v])))))
        subdata := by
  conv_lhs => rw [procesarPares.eq_def]
  simp [hk, hd, hm]

theorem aplicar_vacio (datos : List (String × SectVal)) (sec : String) :
    aplicarSubdata datos sec [] = datos := rfl

theorem aplicar_lista (datos : List (String × SectVal)) (sec : String)
    (subdata m : List (String × DVal)) (hne : subdata.isEmpty = false)
    (hd : dictGet datos sec = some (SectVal.dict m)) :
    aplicarSubdata datos sec subdata =
      dictSet datos sec (SectVal.dict (subdata.foldl (fun acc p => dictSet acc p.1 p.2) m)) := by
  unfold aplicarSubdata
  simp [hne, hd]

theorem seccionNueva_sentinela (st : PState) (c : Cell)
    (h1 : normalizar (cellStr c) = claveSinSeccion) (h2 : seccionAbierta st = false) :
    procesarSeccionNueva st c =
      match agregarSinSeccion st.datos (Item.row [c]) with
      | some d => some { st with datos := d }
      | none => none := by
  unfold procesarSeccionNueva
  simp [h1, h2]

theorem seccionNueva_registra_nueva (st : PState) (c : Cell)
    (h : (normalizar (cellStr c) == claveSinSeccion && !seccionAbierta st) = false)
    (hc : dictContains st.datos (normalizar (cellStr c)) = false) :
    procesarSeccionNueva st c =
      procesarDatos
        { datos := dictSet st.datos (normalizar (cellStr c)) (SectVal.dict []),
          seccion := some (normalizar (cellStr c)), seccionId := st.seccionId,
          headers := [], inTable := false } [c] := by
  unfold procesarSeccionNueva
  simp [h, hc]

theorem seccionNueva_registra_colision (st : PState) (c : Cell)
    (h : (normalizar (cellStr c) == claveSinSeccion && !seccionAbierta st) = false)
    (hc : dictContains st.datos (normalizar (cellStr c)) = true) :
    procesarSeccionNueva st c =
      procesarDatos
        { datos := dictSet st.datos (normalizar (cellStr c) ++ "_" ++ Nat.repr st.seccionId) (SectVal.dict []),
          seccion := some (normalizar (cellStr c) ++ "_" ++ Nat.repr st.seccionId),
          seccionId := st.seccionId + 1, headers := [], inTable := false } [c] := by
  unfold procesarSeccionNueva
  simp [h, hc]

/-- The fall-through data stage the registering branch runs on the very
row that opened the section: the row is re-read as a single metadata pair
`(c, None)`, so either the raw cell and a null land in the fresh section's
`valores_miscelaneos`, or (for an accepted key) the normalized cell text
maps to null. -/
theorem registroCompleto (st : PState) (c : Cell) (key2 : String) (id2 : Nat)
    (hke : key2 ≠ "") :
    procesarDatos
      { datos := dictSet st.datos key2 (SectVal.dict []), seccion := some key2,
        seccionId := id2, headers := [], inTable := false } [c] =
      some { datos := dictSet st.datos key2 (SectVal.dict
               (if claveInvalida c Cell.null
                then [("valores_miscelaneos", DVal.list [c, Cell.null])]
                else [(normalizar (cellStr c), DVal.cell Cell.null)])),
             seccion := some key2, seccionId := id2, headers := [], inTable := false } := by
  rw [procesarDatos_metadata _ key2 [c] rfl hke (by simp)]
  have hd : dictGet (dictSet st.datos key2 (SectVal.dict [])) key2 = some (SectVal.dict []) :=
    dictGet_dictSet_self _ _ _
  by_cases hcv : claveInvalida c Cell.null
  · have hpp : procesarPares key2 (enPares [c]) (dictSet st.datos key2 (SectVal.dict [])) [] =
        some (dictSet st.datos key2 (SectVal.dict [("valores_miscelaneos", DVal.list [c, Cell.null])]), []) := by
      rw [show enPares [c] = [(c, Cell.null)] from rfl]
      rw [pares_rechaza_nuevo _ _ _ _ _ _ _ hcv hd rfl, pares_nil]
      rw [show dictSet ([] : List (String × DVal)) "valores_miscelaneos" (DVal.list [c, Cell.null]) =
            [("valores_miscelaneos", DVal.list [c, Cell.null])] from rfl]
      rw [dictSet_dictSet_self]
    rw [hpp]
    simp [aplicar_vacio, hcv]
  · have hcv' : claveInvalida c Cell.null = false := by simpa using hcv
    have hpp : procesarPares key2 (enPares [c]) (dictSet st.datos key2 (SectVal.dict [])) [] =
        some (dictSet st.datos key2 (SectVal.dict []), [(normalizar (cellStr c), DVal.cell Cell.null)]) := by
      rw [show enPares [c] = [(c, Cell.null)] from rfl]
      rw [pares_acepta _ _ _ _ _ _ _ hcv' hd, pares_nil]
      rfl
    rw [hpp]
    have hap : aplicarSubdata (dictSet st.datos key2 (SectVal.dict [])) key2
        [(normalizar (cellStr c), DVal.cell Cell.null)] =
        dictSet st.datos key2 (SectVal.dict [(normalizar (cellStr c), DVal.cell Cell.null)]) := by
      rw [aplicar_lista _ _ [(normalizar (cellStr c), DVal.cell Cell.null)] [] rfl hd]
      rw [show ([(normalizar (cellStr c), DVal.cell Cell.null)]).foldl
            (fun acc p => dictSet acc p.1 p.2) ([] : List (String × DVal)) =
            [(normalizar (cellStr c), DVal.cell Cell.null)] from rfl]
      rw [dictSet_dictSet_self]
    simp [hap, hcv']

/-! ### Spec-side reference definitions (used to compare code behaviour
against the spec's wording) -/

/-- The spec's notion of an absent cell: null or whitespace-only text. -/
def celdaAusente : Cell → Bool
  | Cell.null => true
  | Cell.text s => recortar s == ""
  | _ => false

/-- The rejection rule as the spec words it: every textual check applied
to the fully normalized key text (trim, lowercase, spaces to
underscores), with no restriction of the checks to text-typed keys. -/
def claveInvalidaSegunSpec (k v : Cell) : Bool :=
  k.isNum ||
  decide ((normalizar (cellStr k)).length > 50) ||
  literalesNoClave.contains (normalizar (cellStr k)) ||
  (normalizar (cellStr k) == "") ||
  (v == Cell.null && !terminaEnSufijo (normalizar (cellStr k)))

/-- The rejection rule as the code has it, restated independently for the
amended claim: numeric keys always rejected; a text key rejected when its
raw length exceeds 50, or its trimmed lowercased text (spaces kept) is a
low-information literal, or it trims to empty, or the value is absent and
the trimmed lowercased text lacks a `_id`/`_name`/`_code` ending; any
non-text non-numeric key accepted. -/
def claveRechazada : Cell → Cell → Bool
  | Cell.num _, _ => true
  | Cell.text s, v =>
      decide (s.length > 50) || literalesNoClave.contains (bajar s) ||
      (recortar s == "") || (v == Cell.null && !terminaEnSufijo (bajar s))
  | _, _ => false

theorem conservar_eq_no_ausente (c : Cell) : conservarCelda c = !celdaAusente c := by
  cases c <;> simp [conservarCelda, celdaAusente, bne]

/-! ### Claims -/

/-- C8 (counterexample): the row-cleaning step does not preserve interior
absent cells — the interior null of `["a", null, "b"]` is removed and the
remaining cells shift together, while the claim requires the cleaned row
to keep the interior `null`. -/
theorem claim_C8_counterexample :
    limpiarFila [Cell.text "a", Cell.null, Cell.text "b"] = [Cell.text "a", Cell.text "b"] ∧
    limpiarFila [Cell.text "a", Cell.null, Cell.text "b"] ≠
      [Cell.text "a", Cell.null, Cell.text "b"] := by
  exact ⟨by decide, by decide⟩

/-- C8 (amended): the row-cleaning step removes every absent cell (null
or whitespace-only text), interior ones included, compacting the
remaining cells leftward; a row left empty is dropped, and no absent cell
survives into any cleaned row. -/
theorem claim_C8_amended :
    (∀ fila : List Cell, limpiarFila fila = fila.filter (fun c => !celdaAusente c)) ∧
    (∀ filas : List (List Cell), ∀ fila ∈ limpiarFilas filas,
      fila ≠ [] ∧ ∀ c ∈ fila, celdaAusente c = false) := by
  constructor
  · intro fila
    unfold limpiarFila
    apply List.filter_congr
    intro c _
    exact conservar_eq_no_ausente c
  · intro filas fila hmem
    unfold limpiarFilas at hmem
    rcases List.mem_filter.mp hmem with ⟨hmap, hne⟩
    constructor
    · intro hnil
      rw [hnil] at hne
      simp at hne
    · intro c hc
      rcases List.mem_map.mp hmap with ⟨f0, _, rfl⟩
      unfold limpiarFila at hc
      have := (List.mem_filter.mp hc).2
      have h2 := conservar_eq_no_ausente c
      rw [this] at h2
      simpa using h2.symm

/-- C8 (witness): the amended characterization applied to a concrete row. -/
theorem claim_C8_witness :
    limpiarFila [Cell.text "x", Cell.null, Cell.num 3] =
      [Cell.text "x", Cell.null, Cell.num 3].filter (fun c => !celdaAusente c) :=
  claim_C8_amended.1 [Cell.text "x", Cell.null, Cell.num 3]

/-- C4 (counterexample): processing `["Modelo", "G3.2"]` inside an open
section does not reject the key — the section mapping gains the entry
`modelo ↦ "G3.2"` and the miscellaneous bucket receives nothing from this
row (it only holds the section title from the registration fall-through). -/
theorem claim_C4_counterexample :
    procesarFilas estadoInicial [[Cell.text "Equipo"], [Cell.text "Modelo", Cell.text "G3.2"]] =
      some { datos := [("equipo", SectVal.dict
               [("valores_miscelaneos", DVal.list [Cell.text "Equipo", Cell.null]),
                ("modelo", DVal.cell (Cell.text "G3.2"))])],
             seccion := some "equipo", seccionId := 1, headers := [], inTable := false } := by
  decide

/-- C4 (amended): for a metadata-mode row `["Modelo", "G3.2"]` in an open
mapping section, the pair is accepted: the mapping gains
`modelo ↦ "G3.2"` and `valores_miscelaneos` is untouched. The
low-information literal list filters key candidates, not values: a key
cell `"G3.2"` would be rejected. -/
theorem claim_C4_amended (st : PState) (s : String) (m : List (String × DVal))
    (h1 : st.seccion = some s) (h2 : s ≠ "") (h3 : st.inTable = false)
    (h4 : dictGet st.datos s = some (SectVal.dict m)) :
    procesarFila st [Cell.text "Modelo", Cell.text "G3.2"] [] =
      some { st with datos := dictSet st.datos s (SectVal.dict (dictSet m "modelo" (DVal.cell (Cell.text "G3.2")))) } ∧
    claveInvalida (Cell.text "Modelo") (Cell.text "G3.2") = false ∧
    claveInvalida (Cell.text "G3.2") (Cell.text "Modelo") = true := by
  refine ⟨?_, by decide, by decide⟩
  rw [procesarFila_ultima st _ (by decide)]
  rw [procesarDatos_metadata st s _ h1 h2 (by simp [h3])]
  have hkv : claveInvalida (Cell.text "Modelo") (Cell.text "G3.2") = false := by decide
  rw [show enPares [Cell.text "Modelo", Cell.text "G3.2"] =
        [(Cell.text "Modelo", Cell.text "G3.2")] from rfl]
  rw [pares_acepta _ _ _ _ _ _ _ hkv h4, pares_nil]
  have hnorm : normalizar (cellStr (Cell.text "Modelo")) = "modelo" := by decide
  have hone : dictSet ([] : List (String × DVal)) "modelo" (DVal.cell (Cell.text "G3.2")) =
      [("modelo", DVal.cell (Cell.text "G3.2"))] := rfl
  have hap : aplicarSubdata st.datos s [("modelo", DVal.cell (Cell.text "G3.2"))] =
      dictSet st.datos s (SectVal.dict (dictSet m "modelo" (DVal.cell (Cell.text "G3.2")))) := by
    rw [aplicar_lista st.datos s [("modelo", DVal.cell (Cell.text "G3.2"))] m rfl h4]
    rfl
  simp [hnorm, hone, hap]

/-- C4 (witness): the amended claim at a concrete open section. -/
theorem claim_C4_witness :
    procesarFila { datos := [("equipo", SectVal.dict [])], seccion := some "equipo",
                   seccionId := 1, headers := [], inTable := false }
      [Cell.text "Modelo", Cell.text "G3.2"] [] =
      some { datos := [("equipo", SectVal.dict [("modelo", DVal.cell (Cell.text "G3.2"))])],
             seccion := some "equipo", seccionId := 1, headers := [], inTable := false } := by
  have h := (claim_C4_amended
    { datos := [("equipo", SectVal.dict [])], seccion := some "equipo",
      seccionId := 1, headers := [], inTable := false } "equipo" []
    rfl (by decide) rfl (by decide)).1
  rw [h]
  decide

/-- C9: in metadata mode over a mapping section, the row
`["Nombre", "Juan", "Edad", 30]` is merged as `nombre ↦ "Juan"` and
`edad ↦ 30`: keys are normalized, values stored exactly as read. -/
theorem claim_C9 (st : PState) (s : String) (m : List (String × DVal))
    (h1 : st.seccion = some s) (h2 : s ≠ "") (h3 : st.inTable = false)
    (h4 : dictGet st.datos s = some (SectVal.dict m)) :
    procesarFila st [Cell.text "Nombre", Cell.text "Juan", Cell.text "Edad", Cell.num 30] [] =
      some { st with datos := dictSet st.datos s (SectVal.dict
        (dictSet (dictSet m "nombre" (DVal.cell (Cell.text "Juan"))) "edad" (DVal.cell (Cell.num 30)))) } := by
  rw [procesarFila_ultima st _ (by decide)]
  rw [procesarDatos_metadata st s _ h1 h2 (by simp [h3])]
  have hkv1 : claveInvalida (Cell.text "Nombre") (Cell.text "Juan") = false := by decide
  have hkv2 : claveInvalida (Cell.text "Edad") (Cell.num 30) = false := by decide
  rw [show enPares [Cell.text "Nombre", Cell.text "Juan", Cell.text "Edad", Cell.num 30] =
        [(Cell.text "Nombre", Cell.text "Juan"), (Cell.text "Edad", Cell.num 30)] from rfl]
  rw [pares_acepta _ _ _ _ _ _ _ hkv1 h4, pares_acepta _ _ _ _ _ _ _ hkv2 h4, pares_nil]
  have hsub : dictSet (dictSet ([] : List (String × DVal))
      (normalizar (cellStr (Cell.text "Nombre"))) (DVal.cell (Cell.text "Juan")))
      (normalizar (cellStr (Cell.text "Edad"))) (DVal.cell (Cell.num 30)) =
      [("nombre", DVal.cell (Cell.text "Juan")), ("edad", DVal.cell (Cell.num 30))] := by decide
  have hap : aplicarSubdata st.datos s
      [("nombre", DVal.cell (Cell.text "Juan")), ("edad", DVal.cell (Cell.num 30))] =
      dictSet st.datos s (SectVal.dict
        (dictSet (dictSet m "nombre" (DVal.cell (Cell.text "Juan"))) "edad" (DVal.cell (Cell.num 30)))) := by
    rw [aplicar_lista st.datos s
      [("nombre", DVal.cell (Cell.text "Juan")), ("edad", DVal.cell (Cell.num 30))] m rfl h4]
    rfl
  simp [hsub, hap]

/-- C9 (witness): the concrete run. -/
theorem claim_C9_witness :
    procesarFila { datos := [("ficha", SectVal.dict [])], seccion := some "ficha",
                   seccionId := 1, headers := [], inTable := false }
      [Cell.text "Nombre", Cell.text "Juan", Cell.text "Edad", Cell.num 30] [] =
      some { datos := [("ficha", SectVal.dict
               [("nombre", DVal.cell (Cell.text "Juan")), ("edad", DVal.cell (Cell.num 30))])],
             seccion := some "ficha", seccionId := 1, headers := [], inTable := false } := by
  have h := claim_C9
    { datos := [("ficha", SectVal.dict [])], seccion := some "ficha",
      seccionId := 1, headers := [], inTable := false } "ficha" []
    rfl (by decide) rfl (by decide)
  rw [h]
  decide

/-- C5 (counterexample): the length test runs on the raw key text, not on
its normalized form. A text key of raw length 51 that strips to a single
character is rejected by the code (routed with its value to
`valores_miscelaneos`), while the spec's predicate — normalized length at
most 50, not a literal, non-empty, value present — accepts it. -/
theorem claim_C5_counterexample :
    claveInvalida (Cell.text ("A" ++ String.mk (List.replicate 50 ' '))) (Cell.text "v") = true ∧
    claveInvalidaSegunSpec (Cell.text ("A" ++ String.mk (List.replicate 50 ' '))) (Cell.text "v") = false ∧
    procesarFilas estadoInicial
      [[Cell.text "Registro"], [Cell.text ("A" ++ String.mk (List.replicate 50 ' ')), Cell.text "v"]] =
      some { datos := [("registro", SectVal.dict
               [("valores_miscelaneos", DVal.list
                  [Cell.text "Registro", Cell.null,
                   Cell.text ("A" ++ String.mk (List.replicate 50 ' ')), Cell.text "v"])])],
             seccion := some "registro", seccionId := 1, headers := [], inTable := false } := by
  exact ⟨by decide, by decide, by decide⟩

/-- C5 (amended): in metadata mode over a mapping section, a pair (k, v)
is routed to `valores_miscelaneos` exactly when `claveRechazada k v`
holds: the key is numeric; or the key is text and its RAW length exceeds
50, or its trimmed lowercased text (spaces kept, no underscore
replacement) is in the literal list, or it trims to empty, or the value
is absent and the trimmed lowercased text does not end in
`_id`/`_name`/`_code`; any non-text non-numeric key is accepted, with the
normalized string form of the key. -/
theorem claim_C5_amended (k v : Cell) :
    procesarFila { datos := [("s", SectVal.dict [])], seccion := some "s",
                   seccionId := 1, headers := [], inTable := false } [k, v] [] =
      some { datos := [("s", SectVal.dict
               (if claveRechazada k v
                then [("valores_miscelaneos", DVal.list [k, v])]
                else [(normalizar (cellStr k), DVal.cell v)]))],
             seccion := some "s", seccionId := 1, headers := [], inTable := false } ∧
    claveRechazada k v = claveInvalida k v := by
  have heq : claveRechazada k v = claveInvalida k v := by
    cases k <;> simp [claveRechazada, claveInvalida, cellStr, Cell.isNum, Cell.isStr]
  refine ⟨?_, heq⟩
  have hst : procesarFila { datos := [("s", SectVal.dict [])], seccion := some "s", seccionId := 1, headers := [], inTable := false } [k, v] [] = procesarDatos { datos := [("s", SectVal.dict [])], seccion := some "s", seccionId := 1, headers := [], inTable := false } [k, v] :=
    procesarFila_ultima _ _ (by simp)
  rw [hst]
  rw [procesarDatos_metadata { datos := [("s", SectVal.dict [])], seccion := some "s", seccionId := 1, headers := [], inTable := false } "s" [k, v] rfl (by decide) rfl]
  have hd : dictGet [("s", SectVal.dict [])] "s" = some (SectVal.dict []) := rfl
  rw [show enPares [k, v] = [(k, v)] from rfl]
  by_cases hkv : claveInvalida k v
  · rw [pares_rechaza_nuevo _ _ _ _ _ _ _ hkv hd rfl, pares_nil]
    have h0 : dictSet ([] : List (String × DVal)) "valores_miscelaneos" (DVal.list [k, v]) =
        [("valores_miscelaneos", DVal.list [k, v])] := rfl
    have h1 : dictSet [("s", SectVal.dict [])] "s"
        (SectVal.dict [("valores_miscelaneos", DVal.list [k, v])]) =
        [("s", SectVal.dict [("valores_miscelaneos", DVal.list [k, v])])] := rfl
    simp [h0, h1, aplicar_vacio, heq, hkv]
  · have hkv' : claveInvalida k v = false := by simpa using hkv
    rw [pares_acepta _ _ _ _ _ _ _ hkv' hd, pares_nil]
    have h0 : dictSet ([] : List (String × DVal)) (normalizar (cellStr k)) (DVal.cell v) =
        [(normalizar (cellStr k), DVal.cell v)] := rfl
    have hap : aplicarSubdata [("s", SectVal.dict [])] "s"
        [(normalizar (cellStr k), DVal.cell v)] =
        [("s", SectVal.dict [(normalizar (cellStr k), DVal.cell v)])] := by
      rw [aplicar_lista _ _ [(normalizar (cellStr k), DVal.cell v)] [] rfl hd]
      rfl
    simp [h0, hap, heq, hkv']

/-- C10 (counterexample): a single-cell numeric row does open a section
keyed by its string form, but the same row then falls through to the
metadata branch of its new section, where the numeric key is rejected:
the fresh section's `valores_miscelaneos` holds the number and a null.
The claim's assertion that such rows are never treated as metadata pairs
fails. -/
theorem claim_C10_counterexample :
    procesarFilas estadoInicial [[Cell.num 42]] =
      some { datos := [("42", SectVal.dict
               [("valores_miscelaneos", DVal.list [Cell.num 42, Cell.null])])],
             seccion := some "42", seccionId := 1, headers := [], inTable := false } := by
  decide

/-- C10 (amended): a single-cell row holding a non-text cell (number or
temporal value) opens a new section keyed by the normalization of the
cell's string form; the row is never table data or noise, but it is
additionally run through the metadata branch of its own new section: a
numeric cell is rejected there into `valores_miscelaneos`, while a
temporal cell is accepted and maps its own normalized text to null. -/
theorem claim_C10_amended (c : Cell) (hnt : c.isStr = false)
    (hsen : normalizar (cellStr c) ≠ claveSinSeccion)
    (hne : normalizar (cellStr c) ≠ "") :
    procesarFila estadoInicial [c] [] =
      some { datos := [(normalizar (cellStr c), SectVal.dict
               (if c.isNum
                then [("valores_miscelaneos", DVal.list [c, Cell.null])]
                else [(normalizar (cellStr c), DVal.cell Cell.null)]))],
             seccion := some (normalizar (cellStr c)), seccionId := 1,
             headers := [], inTable := false } := by
  rw [procesarFila_unica]
  have h : (normalizar (cellStr c) == claveSinSeccion && !seccionAbierta estadoInicial) = false := by
    simp [hsen]
  rw [seccionNueva_registra_nueva estadoInicial c h rfl]
  rw [registroCompleto estadoInicial c (normalizar (cellStr c)) estadoInicial.seccionId hne]
  have hci : claveInvalida c Cell.null = c.isNum := by
    cases c with
    | text s => simp [Cell.isStr] at hnt
    | _ => simp [claveInvalida, Cell.isNum, Cell.isStr]
  have hset : ∀ xv : SectVal,
      dictSet ([] : List (String × SectVal)) (normalizar (cellStr c)) xv =
        [(normalizar (cellStr c), xv)] := fun xv => rfl
  simp [estadoInicial, hci, hset]

/-- C10 (witness): the amended claim at a numeric and a temporal cell. -/
theorem claim_C10_witness :
    procesarFila estadoInicial [Cell.num 42] [] =
      some { datos := [("42", SectVal.dict
               (if (Cell.num 42).isNum
                then [("valores_miscelaneos", DVal.list [Cell.num 42, Cell.null])]
                else [("42", DVal.cell Cell.null)]))],
             seccion := some "42", seccionId := 1, headers := [], inTable := false } ∧
    procesarFila estadoInicial [Cell.temporal "2024-05-01 08:30:00"] [] =
      some { datos := [("2024-05-01_08:30:00", SectVal.dict
               (if (Cell.temporal "2024-05-01 08:30:00").isNum
                then [("valores_miscelaneos", DVal.list [Cell.temporal "2024-05-01 08:30:00", Cell.null])]
                else [("2024-05-01_08:30:00", DVal.cell Cell.null)]))],
             seccion := some "2024-05-01_08:30:00", seccionId := 1,
             headers := [], inTable := false } := by
  constructor
  · have h := claim_C10_amended (Cell.num 42) (by decide) (by decide) (by decide)
    rw [h]
    decide
  · have h := claim_C10_amended (Cell.temporal "2024-05-01 08:30:00") (by decide) (by decide) (by decide)
    rw [h]
    decide

/-- C3 (counterexample): with a section already open, a single-cell row
normalizing to the sentinel is registered as a real section: after
`["Tablero"]` then `["Sin Seccion"]`, the key `sin_seccion` maps to a
metadata mapping (a real section, holding the fall-through pair), not to
the bucket, and it is the current section. -/
theorem claim_C3_counterexample :
    procesarFilas estadoInicial [[Cell.text "Tablero"], [Cell.text "Sin Seccion"]] =
      some { datos := [("tablero", SectVal.dict [("valores_miscelaneos", DVal.list [Cell.text "Tablero", Cell.null])]), ("sin_seccion", SectVal.dict [("valores_miscelaneos", DVal.list [Cell.text "Sin Seccion", Cell.null])])], seccion := some "sin_seccion", seccionId := 1, headers := [], inTable := false } := by
  decide

/-- C3 (amended): a single-cell row normalizing to the sentinel is
appended verbatim to the `sin_seccion` bucket — and opens no section —
only when no section is open; when a section IS open, the same row
registers `sin_seccion` as a real section (here with no key collision:
the fresh mapping holds only the fall-through pair) and makes it
current. -/
theorem claim_C3_amended :
    (∀ (st : PState) (c : Cell) (rest : List (List Cell)) (items : List Item),
      normalizar (cellStr c) = claveSinSeccion → seccionAbierta st = false →
      dictGet st.datos claveSinSeccion = some (SectVal.list items) →
      procesarFila st [c] rest =
        some { st with datos := dictSet st.datos claveSinSeccion (SectVal.list (items ++ [Item.row [c]])) }) ∧
    (∀ (st : PState) (rest : List (List Cell)),
      seccionAbierta st = true → dictContains st.datos claveSinSeccion = false →
      procesarFila st [Cell.text "Sin Seccion"] rest =
        some { datos := dictSet st.datos claveSinSeccion (SectVal.dict [("valores_miscelaneos", DVal.list [Cell.text "Sin Seccion", Cell.null])]), seccion := some claveSinSeccion, seccionId := st.seccionId, headers := [], inTable := false }) := by
  constructor
  · intro st c rest items h1 h2 hslot
    rw [procesarFila_unica, seccionNueva_sentinela st c h1 h2]
    unfold agregarSinSeccion
    rw [hslot]
  · intro st rest hab hcont
    rw [procesarFila_unica]
    have hns : normalizar (cellStr (Cell.text "Sin Seccion")) = claveSinSeccion := by decide
    have h : (normalizar (cellStr (Cell.text "Sin Seccion")) == claveSinSeccion && !seccionAbierta st) = false := by
      simp [hab]
    have hc : dictContains st.datos (normalizar (cellStr (Cell.text "Sin Seccion"))) = false := by
      rw [hns]; exact hcont
    rw [seccionNueva_registra_nueva st (Cell.text "Sin Seccion") h hc, hns]
    rw [registroCompleto st (Cell.text "Sin Seccion") claveSinSeccion st.seccionId (by decide)]
    have hci : claveInvalida (Cell.text "Sin Seccion") Cell.null = true := by decide
    simp [hci]

/-- C3 (witness): the amended claim at a populated bucket and at an open
section. -/
theorem claim_C3_witness :
    procesarFila { datos := [(claveSinSeccion, SectVal.list [])], seccion := none, seccionId := 1, headers := [], inTable := false } [Cell.text "sin seccion"] [] =
      some { datos := [(claveSinSeccion, SectVal.list [Item.row [Cell.text "sin seccion"]])], seccion := none, seccionId := 1, headers := [], inTable := false } ∧
    procesarFila { datos := [("a", SectVal.dict [])], seccion := some "a", seccionId := 1, headers := [], inTable := false } [Cell.text "Sin Seccion"] [] =
      some { datos := [("a", SectVal.dict []), (claveSinSeccion, SectVal.dict [("valores_miscelaneos", DVal.list [Cell.text "Sin Seccion", Cell.null])])], seccion := some claveSinSeccion, seccionId := 1, headers := [], inTable := false } := by
  constructor
  · have h := claim_C3_amended.1 { datos := [(claveSinSeccion, SectVal.list [])], seccion := none, seccionId := 1, headers := [], inTable := false } (Cell.text "sin seccion") [] [] (by decide) rfl (by decide)
    rw [h]
    decide
  · have h := claim_C3_amended.2 { datos := [("a", SectVal.dict [])], seccion := some "a", seccionId := 1, headers := [], inTable := false } [] rfl (by decide)
    rw [h]
    decide

theorem dictContains_append (a b : List (String × α)) (k : String) :
    dictContains (a ++ b) k = (dictContains a k || dictContains b k) := by
  induction a with
  | nil => simp [dictContains]
  | cons p a ih => simp [dictContains, ih, Bool.or_assoc]

theorem construirRegistroAux_eq (fila : List Cell) :
    ∀ (hs : List String) (idx : Nat) (acc : List (String × DVal)),
    (∀ h ∈ hs, dictContains acc h = false) → hs.Nodup →
    construirRegistroAux fila hs idx acc =
      acc ++ (hs.enumFrom idx).map (fun p => (p.2, DVal.cell (fila.getD p.1 Cell.null))) := by
  intro hs
  induction hs with
  | nil =>
    intro idx acc _ _
    simp [construirRegistroAux, List.enumFrom]
  | cons h0 hs ih =>
    intro idx acc hdisj hnd
    have hc : dictContains acc h0 = false := hdisj h0 (by simp)
    rw [show construirRegistroAux fila (h0 :: hs) idx acc =
          construirRegistroAux fila hs (idx + 1) (dictSet acc h0 (DVal.cell (fila.getD idx Cell.null))) from rfl]
    rw [dictSet_eq_append acc h0 _ hc]
    rw [ih (idx + 1) (acc ++ [(h0, DVal.cell (fila.getD idx Cell.null))]) ?hd ?hn]
    · simp [List.enumFrom]
    case hd =>
      intro h hmem
      rw [dictContains_append]
      have h1 : dictContains acc h = false := hdisj h (by simp [hmem])
      have hne : h ≠ h0 := by
        intro hhe
        subst hhe
        exact (List.nodup_cons.mp hnd).1 hmem
      have h2 : ∀ w : DVal, dictContains [(h0, w)] h = false := by
        intro w
        simp [dictContains, Ne.symm hne]
      simp [h1, h2]
    case hn => exact (List.nodup_cons.mp hnd).2

theorem construirRegistro_eq (hs : List String) (fila : List Cell) (hnd : hs.Nodup) :
    construirRegistro hs fila =
      hs.enum.map (fun p => (p.2, DVal.cell (fila.getD p.1 Cell.null))) := by
  unfold construirRegistro
  rw [construirRegistroAux_eq fila hs 0 [] (fun h _ => rfl) hnd]
  simp [List.enum]

/-- C7: in table mode with a non-empty header list, a data row builds the
record pairing each header position with the row's cell at that index (or
null when the row is shorter — no column shifting), appends it exactly
when some field value is non-null and non-blank, and is otherwise
silently dropped; the concrete scenario header `["Corriente", "Tiempo"]`,
data `[10, 5]`, then a blank-equivalent row yields exactly the one record
`{corriente: 10, tiempo: 5}`. -/
theorem claim_C7 :
    (∀ (st : PState) (s : String) (L : List Item) (fila : List Cell),
      st.seccion = some s → s ≠ "" → st.inTable = true → st.headers.isEmpty = false →
      dictGet st.datos s = some (SectVal.list L) → fila.length ≠ 1 →
      procesarFila st fila [] =
        if (construirRegistro st.headers fila).any (fun p => dvalNoVacio p.2)
        then some { st with datos := dictSet st.datos s (SectVal.list (L ++ [Item.reg (construirRegistro st.headers fila)])) }
        else some st) ∧
    (∀ (hs : List String) (fila : List Cell), hs.Nodup →
      construirRegistro hs fila = hs.enum.map (fun p => (p.2, DVal.cell (fila.getD p.1 Cell.null)))) ∧
    procesarHoja [[Cell.text "Ensayo"], [Cell.text "Corriente", Cell.text "Tiempo"], [Cell.num 10, Cell.num 5], [Cell.null, Cell.null]] =
      some { datos := [("ensayo", SectVal.list [Item.reg [("corriente", DVal.cell (Cell.num 10)), ("tiempo", DVal.cell (Cell.num 5))]])], seccion := some "ensayo", seccionId := 1, headers := ["corriente", "tiempo"], inTable := true } := by
  refine ⟨?_, ?_, by decide⟩
  · intro st s L fila h1 h2 h3 h4 h5 hlen
    rw [procesarFila_ultima st fila hlen, procesarDatos_tabla st s L fila h1 h2 h3 h4 h5]
  · intro hs fila hnd
    exact construirRegistro_eq hs fila hnd

/-- C7 (witness): the table rule at a concrete state, and the padding
rule on a row shorter than the headers. -/
theorem claim_C7_witness :
    procesarFila { datos := [("medidas", SectVal.list [])], seccion := some "medidas", seccionId := 1, headers := ["corriente", "tiempo"], inTable := true } [Cell.num 7, Cell.num 8] [] =
      some { datos := [("medidas", SectVal.list [Item.reg [("corriente", DVal.cell (Cell.num 7)), ("tiempo", DVal.cell (Cell.num 8))]])], seccion := some "medidas", seccionId := 1, headers := ["corriente", "tiempo"], inTable := true } ∧
    construirRegistro ["corriente", "tiempo"] [Cell.num 7] =
      ["corriente", "tiempo"].enum.map (fun p => (p.2, DVal.cell ([Cell.num 7].getD p.1 Cell.null))) := by
  constructor
  · have h := claim_C7.1 { datos := [("medidas", SectVal.list [])], seccion := some "medidas", seccionId := 1, headers := ["corriente", "tiempo"], inTable := true } "medidas" [] [Cell.num 7, Cell.num 8] rfl (by decide) rfl rfl rfl (by decide)
    rw [h]
    decide
  · exact claim_C7.2.1 ["corriente", "tiempo"] [Cell.num 7] (by decide)

/-- C1 (counterexample): table headers are NOT immutable. After section
`["Tabla"]` fixes headers `["col_a","col_b"]` (via the data row
`["x",1]`), the later all-text row `["Col C","Col D"]` — followed by the
data-like row `["y",2]` — re-fires header detection in table mode and
replaces the stored headers, so the second record is keyed
`col_c`/`col_d` and the final header list is `["col_c","col_d"]`. -/
theorem claim_C1_counterexample :
    procesarFilas estadoInicial [[Cell.text "Tabla"], [Cell.text "Col A", Cell.text "Col B"], [Cell.text "x", Cell.num 1], [Cell.text "Col C", Cell.text "Col D"], [Cell.text "y", Cell.num 2]] =
      some { datos := [("tabla", SectVal.list [Item.reg [("col_a", DVal.cell (Cell.text "x")), ("col_b", DVal.cell (Cell.num 1))], Item.reg [("col_c", DVal.cell (Cell.text "y")), ("col_d", DVal.cell (Cell.num 2))]])], seccion := some "tabla", seccionId := 1, headers := ["col_c", "col_d"], inTable := true } := by
  decide

/-- C1 (amended): once table mode is entered with a non-empty header
list, a later non-single-cell row whose lookahead is NOT data-like leaves
the header list unchanged (in particular the allow-list branch alone can
never re-fire once headers are fixed) and the section's content remains a
record sequence that only grows; headers can change mid-section only when
a later all-text row is again followed by a data-like row. -/
theorem claim_C1_amended (st : PState) (s : String) (L : List Item) (fila : List Cell)
    (rest : List (List Cell)) (h1 : st.seccion = some s) (h2 : s ≠ "")
    (h3 : st.inTable = true) (h4 : st.headers.isEmpty = false)
    (h5 : dictGet st.datos s = some (SectVal.list L)) (hlen : fila.length ≠ 1)
    (hnext : filaProbableDatos (filaSiguiente rest) = false) :
    procesarFila st fila rest =
      (if (construirRegistro st.headers fila).any (fun p => dvalNoVacio p.2)
       then some { st with datos := dictSet st.datos s (SectVal.list (L ++ [Item.reg (construirRegistro st.headers fila)])) }
       else some st) ∧
    ∀ st', procesarFila st fila rest = some st' →
      st'.headers = st.headers ∧ st'.inTable = true ∧
      ∃ L2, dictGet st'.datos s = some (SectVal.list (L ++ L2)) := by
  have hdet : detectaCabecera s st.headers (filaSiguiente rest) = false := by
    simp [detectaCabecera, hnext, h4]
  have hpaso : procesarFila st fila rest =
      (if (construirRegistro st.headers fila).any (fun p => dvalNoVacio p.2)
       then some { st with datos := dictSet st.datos s (SectVal.list (L ++ [Item.reg (construirRegistro st.headers fila)])) }
       else some st) := by
    rw [procesarFila_sin_cabecera st s fila rest h1 hdet hlen]
    rw [procesarDatos_tabla st s L fila h1 h2 h3 h4 h5]
  refine ⟨hpaso, ?_⟩
  intro st' hst'
  rw [hpaso] at hst'
  by_cases hany : (construirRegistro st.headers fila).any (fun p => dvalNoVacio p.2)
  · rw [if_pos hany] at hst'
    have hv := Option.some.inj hst'
    rw [← hv]
    refine ⟨rfl, h3, [Item.reg (construirRegistro st.headers fila)], ?_⟩
    exact dictGet_dictSet_self _ _ _
  · rw [if_neg hany] at hst'
    have hv := Option.some.inj hst'
    rw [← hv]
    refine ⟨rfl, h3, [], ?_⟩
    rw [List.append_nil]
    exact h5

/-- C1 (witness): an all-text row followed by a single-cell section row
(lookahead not data-like) does not change the fixed headers; it is
consumed as an ordinary table record. -/
theorem claim_C1_witness :
    procesarFila { datos := [("t", SectVal.list [])], seccion := some "t", seccionId := 1, headers := ["a", "b"], inTable := true } [Cell.text "X", Cell.text "Y"] [[Cell.text "Seccion Sig"]] =
      some { datos := [("t", SectVal.list [Item.reg [("a", DVal.cell (Cell.text "X")), ("b", DVal.cell (Cell.text "Y"))]])], seccion := some "t", seccionId := 1, headers := ["a", "b"], inTable := true } := by
  have h := (claim_C1_amended { datos := [("t", SectVal.list [])], seccion := some "t", seccionId := 1, headers := ["a", "b"], inTable := true } "t" [] [Cell.text "X", Cell.text "Y"] [[Cell.text "Seccion Sig"]] rfl (by decide) rfl rfl rfl (by decide) (by decide)).1
  rw [h]
  decide

/-! ### Every registry write is a dictionary set: the reachability
relation used for the uniqueness and persistence invariants -/

inductive Alcanzable : List (String × SectVal) → List (String × SectVal) → Prop
  | refl (m : List (String × SectVal)) : Alcanzable m m
  | paso (m1 m2 : List (String × SectVal)) (k : String) (v : SectVal) :
      Alcanzable m1 m2 → Alcanzable m1 (dictSet m2 k v)

theorem alcanzable_trans {a b c : List (String × SectVal)}
    (h1 : Alcanzable a b) (h2 : Alcanzable b c) : Alcanzable a c := by
  induction h2 with
  | refl => exact h1
  | paso m2 k v hp ih => exact Alcanzable.paso _ _ k v ih

theorem alcanzable_nodup {a b : List (String × SectVal)} (h : Alcanzable a b)
    (hnd : (a.map Prod.fst).Nodup) : (b.map Prod.fst).Nodup := by
  induction h with
  | refl => exact hnd
  | paso m2 k v hp ih => exact nodup_dictSet _ _ _ ih

theorem alcanzable_contains {a b : List (String × SectVal)} (h : Alcanzable a b)
    (k : String) (hc : dictContains a k = true) : dictContains b k = true := by
  induction h with
  | refl => exact hc
  | paso m2 k2 v hp ih => exact dictContains_dictSet_mono _ _ _ _ ih

theorem alcanzable_un_paso (m : List (String × SectVal)) (k : String) (v : SectVal) :
    Alcanzable m (dictSet m k v) :=
  Alcanzable.paso m m k v (Alcanzable.refl m)

theorem pares_alcanzable (sec : String) :
    ∀ (pares : List (Cell × Cell)) (datos : List (String × SectVal))
      (subdata : List (String × DVal)) (out : List (String × SectVal) × List (String × DVal)),
    procesarPares sec pares datos subdata = some out → Alcanzable datos out.1 := by
  intro pares
  induction pares with
  | nil =>
    intro datos subdata out h
    rw [pares_nil] at h
    cases h
    exact Alcanzable.refl datos
  | cons kv rest ih =>
    intro datos subdata out h
    obtain ⟨k, v⟩ := kv
    simp only [procesarPares] at h
    split at h
    · split at h
      · split at h
        · exact alcanzable_trans (alcanzable_un_paso _ _ _) (ih _ _ _ h)
        · cases h
        · exact alcanzable_trans (alcanzable_un_paso _ _ _) (ih _ _ _ h)
      · exact alcanzable_trans (alcanzable_un_paso _ _ _) (ih _ _ _ h)
      · cases h
    · split at h
      · exact ih _ _ _ h
      · exact alcanzable_trans (alcanzable_un_paso _ _ _) (ih _ _ _ h)
      · cases h

theorem aplicar_alcanzable (datos : List (String × SectVal)) (sec : String)
    (subdata : List (String × DVal)) : Alcanzable datos (aplicarSubdata datos sec subdata) := by
  unfold aplicarSubdata
  split
  · exact Alcanzable.refl datos
  · split
    · exact alcanzable_un_paso _ _ _
    · exact Alcanzable.refl datos

theorem agregar_alcanzable (datos d : List (String × SectVal)) (item : Item)
    (h : agregarSinSeccion datos item = some d) : Alcanzable datos d := by
  unfold agregarSinSeccion at h
  split at h
  · cases h
    exact alcanzable_un_paso _ _ _
  · cases h
  · cases h
    exact alcanzable_un_paso _ _ _

theorem cabecera_alcanzable (datos : List (String × SectVal)) (sec : String) :
    Alcanzable datos (datosCabecera datos sec) := by
  unfold datosCabecera
  split
  · exact Alcanzable.refl datos
  · exact alcanzable_un_paso _ _ _

theorem procesarDatos_alcanzable (st : PState) (fila : List Cell) (st' : PState)
    (h : procesarDatos st fila = some st') : Alcanzable st.datos st'.datos := by
  unfold procesarDatos at h
  split at h
  · split at h
    · split at h
      · split at h
        · split at h
          · cases h
            exact alcanzable_un_paso _ _ _
          · cases h
        · cases h
          exact Alcanzable.refl _
      · split at h
        · rename_i out heq
          cases h
          exact alcanzable_trans (pares_alcanzable _ _ _ _ _ heq) (aplicar_alcanzable _ _ _)
        · cases h
    · cases h
  · split at h
    · rename_i d heq
      cases h
      exact agregar_alcanzable _ _ _ heq
    · cases h

theorem seccionNueva_alcanzable (st : PState) (c : Cell) (st' : PState)
    (h : procesarSeccionNueva st c = some st') : Alcanzable st.datos st'.datos := by
  unfold procesarSeccionNueva at h
  split at h
  · split at h
    · rename_i d heq
      cases h
      exact agregar_alcanzable _ _ _ heq
    · cases h
  · split at h
    · have h2 := procesarDatos_alcanzable _ _ _ h
      exact alcanzable_trans (alcanzable_un_paso _ _ _) h2
    · have h2 := procesarDatos_alcanzable _ _ _ h
      exact alcanzable_trans (alcanzable_un_paso _ _ _) h2

theorem procesarFila_alcanzable (st : PState) (fila : List Cell)
    (rest : List (List Cell)) (st' : PState)
    (h : procesarFila st fila rest = some st') : Alcanzable st.datos st'.datos := by
  unfold procesarFila at h
  split at h
  · exact seccionNueva_alcanzable _ _ _ h
  · split at h
    · split at h
      · cases h
        exact cabecera_alcanzable _ _
      · exact procesarDatos_alcanzable _ _ _ h
    · exact procesarDatos_alcanzable _ _ _ h

theorem procesarFilas_alcanzable :
    ∀ (rows : List (List Cell)) (st st' : PState),
    procesarFilas st rows = some st' → Alcanzable st.datos st'.datos := by
  intro rows
  induction rows with
  | nil =>
    intro st st' h
    cases h
    exact Alcanzable.refl _
  | cons fila rest ih =>
    intro st st' h
    unfold procesarFilas at h
    split at h
    · rename_i st1 heq
      exact alcanzable_trans (procesarFila_alcanzable _ _ _ _ heq) (ih _ _ h)
    · cases h

theorem sufijo_distinto (key : String) (n : Nat) :
    key ++ "_" ++ Nat.repr n ≠ key ∧ key ++ "_" ++ Nat.repr n ≠ "" := by
  have h1 : ("_" : String).length = 1 := rfl
  have h0 : ("" : String).length = 0 := rfl
  have hlen : (key ++ "_" ++ Nat.repr n).length = key.length + 1 + (Nat.repr n).length := by
    rw [String.length_append, String.length_append, h1]
  constructor
  · intro h
    have hc := congrArg String.length h
    rw [hlen] at hc
    omega
  · intro h
    have hc := congrArg String.length h
    rw [hlen, h0] at hc
    omega

/-- C2: section keys in a per-sheet result are pairwise distinct; a
single-cell row whose normalized key already exists registers instead the
key with `_<counter>` appended — a key distinct from the existing one,
whose section the registration leaves untouched — and keys, once present,
persist to the end of the pass. -/
theorem claim_C2 :
    (∀ (rows : List (List Cell)) (st : PState),
      procesarFilas estadoInicial rows = some st → (st.datos.map Prod.fst).Nodup) ∧
    (∀ (st : PState) (c : Cell) (rest : List (List Cell)),
      dictContains st.datos (normalizar (cellStr c)) = true →
      ¬(normalizar (cellStr c) = claveSinSeccion ∧ seccionAbierta st = false) →
      ∃ st', procesarFila st [c] rest = some st' ∧
        st'.seccion = some (normalizar (cellStr c) ++ "_" ++ Nat.repr st.seccionId) ∧
        normalizar (cellStr c) ++ "_" ++ Nat.repr st.seccionId ≠ normalizar (cellStr c) ∧
        dictGet st'.datos (normalizar (cellStr c)) = dictGet st.datos (normalizar (cellStr c)) ∧
        dictContains st'.datos (normalizar (cellStr c) ++ "_" ++ Nat.repr st.seccionId) = true) ∧
    (∀ (st st' : PState) (rows : List (List Cell)) (k : String),
      procesarFilas st rows = some st' → dictContains st.datos k = true →
      dictContains st'.datos k = true) := by
  refine ⟨?_, ?_, ?_⟩
  · intro rows st h
    exact alcanzable_nodup (procesarFilas_alcanzable rows estadoInicial st h)
      (by simp [estadoInicial])
  · intro st c rest hcont hno
    have hb : (normalizar (cellStr c) == claveSinSeccion && !seccionAbierta st) = false := by
      by_cases hs : normalizar (cellStr c) = claveSinSeccion
      · have hab : seccionAbierta st = true := by
          cases hab2 : seccionAbierta st
          · exact absurd ⟨hs, hab2⟩ hno
          · rfl
        simp [hab]
      · simp [hs]
    rw [procesarFila_unica, seccionNueva_registra_colision st c hb hcont]
    rw [registroCompleto st c (normalizar (cellStr c) ++ "_" ++ Nat.repr st.seccionId)
      (st.seccionId + 1) (sufijo_distinto _ _).2]
    refine ⟨_, rfl, rfl, (sufijo_distinto _ _).1, ?_, ?_⟩
    · exact dictGet_dictSet_ne _ _ _ _ (Ne.symm (sufijo_distinto _ _).1)
    · exact dictContains_dictSet_self _ _ _
  · intro st st' rows k h hc
    exact alcanzable_contains (procesarFilas_alcanzable rows st st' h) k hc

/-- C2 (witness): registering `["A"]` while key `"a"` exists yields the
suffixed current section `a_1`, leaves `a` untouched, and adds `a_1`. -/
theorem claim_C2_witness :
    ∃ st', procesarFila { datos := [("a", SectVal.dict [])], seccion := some "a", seccionId := 1, headers := [], inTable := false } [Cell.text "A"] [] = some st' ∧
      st'.seccion = some (normalizar (cellStr (Cell.text "A")) ++ "_" ++ Nat.repr 1) ∧
      normalizar (cellStr (Cell.text "A")) ++ "_" ++ Nat.repr 1 ≠ normalizar (cellStr (Cell.text "A")) ∧
      dictGet st'.datos (normalizar (cellStr (Cell.text "A"))) = dictGet [("a", SectVal.dict [])] (normalizar (cellStr (Cell.text "A"))) ∧
      dictContains st'.datos (normalizar (cellStr (Cell.text "A")) ++ "_" ++ Nat.repr 1) = true :=
  claim_C2.2.1 { datos := [("a", SectVal.dict [])], seccion := some "a", seccionId := 1, headers := [], inTable := false } (Cell.text "A") [] (by decide) (by decide)

/-! ### Well-shaped states and step totality (for C6) -/

/-- The `valores_miscelaneos` slot of a mapping, when present, is a list
(otherwise a rejected pair faults on `.extend`). -/
def miscBien (m : List (String × DVal)) : Bool :=
  match dictGet m "valores_miscelaneos" with
  | some (DVal.cell _) => false
  | _ => true

/-- The `sin_seccion` key, when present, is a bucket list (otherwise a
bucket append faults). -/
def sinBien (datos : List (String × SectVal)) : Bool :=
  match dictGet datos claveSinSeccion with
  | some (SectVal.dict _) => false
  | _ => true

/-- The open section, if any, exists in the registry, has a well-shaped
miscellaneous slot when it is a mapping, and is a list when table mode
with fixed headers is active. -/
def seccionBien (st : PState) : Bool :=
  match st.seccion with
  | none => true
  | some s =>
    (s == "") ||
    (match dictGet st.datos s with
     | some (SectVal.dict m) => miscBien m && !(st.inTable && !st.headers.isEmpty)
     | some (SectVal.list _) => true
     | none => false)

def buenEstado (st : PState) : Bool :=
  seccionBien st && sinBien st.datos

theorem pares_rechaza_lista (sec : String) (k v : Cell) (rest : List (Cell × Cell))
    (datos : List (String × SectVal)) (subdata : List (String × DVal)) (items : List Item)
    (hk : claveInvalida k v = true) (hd : dictGet datos sec = some (SectVal.list items)) :
    procesarPares sec ((k, v) :: rest) datos subdata =
      procesarPares sec rest
        (dictSet datos sec (SectVal.list (items ++ [Item.reg [("valores_miscelaneos", DVal.list [k, v])]]))) subdata := by
  conv_lhs => rw [procesarPares.eq_def]
  simp [hk, hd]

theorem pares_acepta_lista (sec : String) (k v : Cell) (rest : List (Cell × Cell))
    (datos : List (String × SectVal)) (subdata : List (String × DVal)) (items : List Item)
    (hk : claveInvalida k v = false) (hd : dictGet datos sec = some (SectVal.list items)) :
    procesarPares sec ((k, v) :: rest) datos subdata =
      procesarPares sec rest
        (dictSet datos sec (SectVal.list (items ++ [Item.reg [(normalizar (cellStr k), DVal.cell v)]]))) subdata := by
  conv_lhs => rw [procesarPares.eq_def]
  simp [hk, hd]

theorem pares_total (sec : String) :
    ∀ (pares : List (Cell × Cell)) (datos : List (String × SectVal))
      (subdata : List (String × DVal)),
    (match dictGet datos sec with
     | some (SectVal.dict m) => miscBien m = true
     | some (SectVal.list _) => True
     | none => False) →
    ∃ out, procesarPares sec pares datos subdata = some out := by
  intro pares
  induction pares with
  | nil =>
    intro datos subdata hcond
    exact ⟨(datos, subdata), pares_nil sec datos subdata⟩
  | cons kv rest ih =>
    intro datos subdata hcond
    obtain ⟨k, v⟩ := kv
    cases hd : dictGet datos sec with
    | none => rw [hd] at hcond; exact absurd hcond (by simp)
    | some sv =>
      cases sv with
      | dict m =>
        rw [hd] at hcond
        have hmb : miscBien m = true := hcond
        by_cases hkv : claveInvalida k v
        · cases hm : dictGet m "valores_miscelaneos" with
          | none =>
            rw [pares_rechaza_nuevo sec k v rest datos subdata m hkv hd hm]
            apply ih
            rw [dictGet_dictSet_self]
            show miscBien (dictSet m "valores_miscelaneos" (DVal.list [k, v])) = true
            unfold miscBien
            rw [dictGet_dictSet_self]
          | some dv =>
            cases dv with
            | cell c0 =>
              exfalso
              unfold miscBien at hmb
              rw [hm] at hmb
              simp at hmb
            | list cs =>
              rw [pares_rechaza_acumula sec k v rest datos subdata m cs hkv hd hm]
              apply ih
              rw [dictGet_dictSet_self]
              show miscBien (dictSet m "valores_miscelaneos" (DVal.list (cs ++ [k, v]))) = true
              unfold miscBien
              rw [dictGet_dictSet_self]
        · have hkv' : claveInvalida k v = false := by simpa using hkv
          rw [pares_acepta sec k v rest datos subdata m hkv' hd]
          apply ih
          rw [hd]
          exact hcond
      | list items =>
        by_cases hkv : claveInvalida k v
        · rw [pares_rechaza_lista sec k v rest datos subdata items hkv hd]
          apply ih
          rw [dictGet_dictSet_self]
          trivial
        · have hkv' : claveInvalida k v = false := by simpa using hkv
          rw [pares_acepta_lista sec k v rest datos subdata items hkv' hd]
          apply ih
          rw [dictGet_dictSet_self]
          trivial

theorem agregar_total (datos : List (String × SectVal)) (item : Item)
    (h : sinBien datos = true) : ∃ d, agregarSinSeccion datos item = some d := by
  unfold agregarSinSeccion
  cases hd : dictGet datos claveSinSeccion with
  | none => exact ⟨_, rfl⟩
  | some sv =>
    cases sv with
    | dict m =>
      exfalso
      unfold sinBien at h
      rw [hd] at h
      simp at h
    | list items => exact ⟨_, rfl⟩

theorem procesarDatos_total (st : PState) (fila : List Cell)
    (hs : seccionBien st = true) (hb : sinBien st.datos = true) :
    ∃ st', procesarDatos st fila = some st' := by
  cases hab : seccionAbierta st with
  | false =>
    rw [procesarDatos_sinSeccion st fila hab]
    obtain ⟨d, hd⟩ := agregar_total st.datos (entradaSinSeccion fila) hb
    rw [hd]
    exact ⟨_, rfl⟩
  | true =>
    have hsec : ∃ s, st.seccion = some s ∧ s ≠ "" := by
      unfold seccionAbierta at hab
      cases hseq : st.seccion with
      | none => rw [hseq] at hab; simp at hab
      | some s =>
        rw [hseq] at hab
        simp at hab
        exact ⟨s, rfl, hab⟩
    obtain ⟨s, hseq, hsne⟩ := hsec
    unfold seccionBien at hs
    rw [hseq] at hs
    have hs2 : (match dictGet st.datos s with
        | some (SectVal.dict m) => miscBien m && !(st.inTable && !st.headers.isEmpty)
        | some (SectVal.list _) => true
        | none => false) = true := by
      rcases Bool.or_eq_true_iff.mp hs with h1 | h2
      · exact absurd (by simpa using h1) hsne
      · exact h2
    by_cases htab : (st.inTable && !st.headers.isEmpty) = true
    · have h34 : st.inTable = true ∧ (!st.headers.isEmpty) = true := by
        simpa using htab
      have h4 : st.headers.isEmpty = false := by simpa using h34.2
      cases hd : dictGet st.datos s with
      | none => rw [hd] at hs2; simp at hs2
      | some sv =>
        cases sv with
        | dict m =>
          exfalso
          rw [hd] at hs2
          have hs3 : (miscBien m && !(st.inTable && !st.headers.isEmpty)) = true := hs2
          rw [htab] at hs3
          simp at hs3
        | list items =>
          rw [procesarDatos_tabla st s items fila hseq hsne h34.1 h4 hd]
          split
          · exact ⟨_, rfl⟩
          · exact ⟨_, rfl⟩
    · have htab' : (st.inTable && !st.headers.isEmpty) = false := by simpa using htab
      rw [procesarDatos_metadata st s fila hseq hsne htab']
      have hcond : (match dictGet st.datos s with
          | some (SectVal.dict m) => miscBien m = true
          | some (SectVal.list _) => True
          | none => False) := by
        cases hd : dictGet st.datos s with
        | none =>
          rw [hd] at hs2
          simp at hs2
        | some sv =>
          cases sv with
          | dict m =>
            rw [hd] at hs2
            have hs3 : (miscBien m && !(st.inTable && !st.headers.isEmpty)) = true := hs2
            show miscBien m = true
            have h5 := Bool.and_eq_true_iff.mp hs3
            exact h5.1
          | list items => trivial
      obtain ⟨⟨d, sub⟩, hout⟩ := pares_total s (enPares fila) st.datos [] hcond
      rw [hout]
      exact ⟨_, rfl⟩

theorem seccionNueva_total (st : PState) (c : Cell)
    (hb : sinBien st.datos = true) :
    ∃ st', procesarSeccionNueva st c = some st' := by
  by_cases hsen : (normalizar (cellStr c) == claveSinSeccion && !seccionAbierta st) = true
  · unfold procesarSeccionNueva
    rw [if_pos hsen]
    obtain ⟨d, hd⟩ := agregar_total st.datos (Item.row [c]) hb
    rw [hd]
    exact ⟨_, rfl⟩
  · have hsen' : (normalizar (cellStr c) == claveSinSeccion && !seccionAbierta st) = false := by
      simpa using hsen
    by_cases hc : dictContains st.datos (normalizar (cellStr c)) = true
    · rw [seccionNueva_registra_colision st c hsen' hc]
      rw [registroCompleto st c (normalizar (cellStr c) ++ "_" ++ Nat.repr st.seccionId)
        (st.seccionId + 1) (sufijo_distinto _ _).2]
      exact ⟨_, rfl⟩
    · have hc' : dictContains st.datos (normalizar (cellStr c)) = false := by simpa using hc
      rw [seccionNueva_registra_nueva st c hsen' hc']
      by_cases hke : normalizar (cellStr c) = ""
      · rw [hke]
        rw [procesarDatos_sinSeccion _ [c] (by simp [seccionAbierta])]
        have hb1 : sinBien (dictSet st.datos "" (SectVal.dict [])) = true := by
          unfold sinBien at hb ⊢
          rw [dictGet_dictSet_ne st.datos "" claveSinSeccion (SectVal.dict []) (by decide)]
          exact hb
        obtain ⟨d, hd⟩ := agregar_total (dictSet st.datos "" (SectVal.dict []))
          (entradaSinSeccion [c]) hb1
        rw [hd]
        exact ⟨_, rfl⟩
      · rw [registroCompleto st c (normalizar (cellStr c)) st.seccionId hke]
        exact ⟨_, rfl⟩

/-- C6 (counterexample): the pass is neither fault-free nor
once-per-row. (1) After `["T"]` the accepted key `"Valores Miscelaneos"`
overwrites the miscellaneous slot with the scalar 5, and the next
rejected pair `["ok", 7]` faults trying to extend it — the whole pass
returns an error, not a fallback bucket. (2) A single-cell row is
processed twice: `["Taller"]` both registers section `taller` and is
consumed by the metadata branch of that section, leaving
`["Taller", null]` in its own `valores_miscelaneos`. -/
theorem claim_C6_counterexample :
    procesarFilas estadoInicial [[Cell.text "T"], [Cell.text "Valores Miscelaneos", Cell.num 5], [Cell.text "ok", Cell.num 7]] = none ∧
    procesarFilas estadoInicial [[Cell.text "Taller"]] =
      some { datos := [("taller", SectVal.dict [("valores_miscelaneos", DVal.list [Cell.text "Taller", Cell.null])])], seccion := some "taller", seccionId := 1, headers := [], inTable := false } := by
  exact ⟨by decide, by decide⟩

theorem procesarFila_seccion_vacia (st : PState) (fila : List Cell)
    (rest : List (List Cell)) (hlen : fila.length ≠ 1) (hseq : st.seccion = some "") :
    procesarFila st fila rest = procesarDatos st fila := by
  cases fila with
  | nil => simp [procesarFila, hseq]
  | cons a t =>
    cases t with
    | nil => simp at hlen
    | cons b t2 => simp [procesarFila, hseq]

theorem procesarFila_cabecera_o_datos (st : PState) (a b : Cell) (t2 : List Cell)
    (rest : List (List Cell)) :
    (∃ sec, st.seccion = some sec ∧ procesarFila st (a :: b :: t2) rest =
      some { st with datos := datosCabecera st.datos sec,
                     headers := (a :: b :: t2).map (fun c => normalizar (cellStr c)),
                     inTable := true }) ∨
    procesarFila st (a :: b :: t2) rest = procesarDatos st (a :: b :: t2) := by
  cases hseq : st.seccion with
  | none =>
    right
    simp [procesarFila, hseq]
  | some sec =>
    by_cases hg : ((sec != "") && decide ((a :: b :: t2).length > 1) && (a :: b :: t2).all Cell.isStr && !rest.isEmpty && detectaCabecera sec st.headers (filaSiguiente rest)) = true
    · simp only [Bool.and_eq_true] at hg
      obtain ⟨⟨⟨⟨hg1, hg2⟩, hg3⟩, hg4⟩, hg5⟩ := hg
      have hrne : rest ≠ [] := by
        intro hre
        subst hre
        simp at hg4
      left
      refine ⟨sec, rfl, ?_⟩
      have hlem := procesarFila_cabecera st sec (a :: b :: t2) rest hseq (by simpa using hg1)
        (of_decide_eq_true hg2) hg3 hrne hg5
      rw [hseq] at hlem
      exact hlem
    · right
      by_cases hdet : detectaCabecera sec st.headers (filaSiguiente rest) = true
      · by_cases hstr : (a :: b :: t2).all Cell.isStr = true
        · by_cases hrest : rest = []
          · subst hrest
            exact procesarFila_ultima st _ (by simp)
          · by_cases hsec0 : sec = ""
            · exact procesarFila_seccion_vacia st _ rest (by simp) (hsec0 ▸ hseq)
            · exfalso
              apply hg
              have h1 : (sec != "") = true := by simp [hsec0]
              have h2 : decide ((a :: b :: t2).length > 1) = true := by simp
              have hre : (!rest.isEmpty) = true := by
                cases rest
                · exact absurd rfl hrest
                · rfl
              simp [h1, h2, hstr, hre, hdet]
        · exact procesarFila_no_texto st _ rest (by simp) (by simpa using hstr)
      · exact procesarFila_sin_cabecera st sec _ rest hseq (by simpa using hdet) (by simp)

/-- C6 (amended): each row is handled deterministically by exactly one
pass over it, and from any well-shaped state — the open section exists,
table mode implies its content is a record list, its miscellaneous slot
and the sin_seccion bucket (when present) are lists — the step never
faults: it always produces a next state. (Outside that shape the pass can
fault, and a single-cell section row additionally falls through to the
metadata branch of its new section, so a row can contribute two
outcomes.) -/
theorem claim_C6_amended (st : PState) (fila : List Cell) (rest : List (List Cell))
    (h : buenEstado st = true) : ∃ st', procesarFila st fila rest = some st' := by
  have hsb : seccionBien st = true := (Bool.and_eq_true_iff.mp h).1
  have hbb : sinBien st.datos = true := (Bool.and_eq_true_iff.mp h).2
  cases fila with
  | nil =>
    cases hseq : st.seccion with
    | none =>
      obtain ⟨st', hst'⟩ := procesarDatos_total st [] hsb hbb
      exact ⟨st', by simp [procesarFila, hseq, hst']⟩
    | some sec =>
      obtain ⟨st', hst'⟩ := procesarDatos_total st [] hsb hbb
      exact ⟨st', by simp [procesarFila, hseq, hst']⟩
  | cons a t =>
    cases t with
    | nil =>
      rw [procesarFila_unica]
      exact seccionNueva_total st a hbb
    | cons b t2 =>
      rcases procesarFila_cabecera_o_datos st a b t2 rest with ⟨sec, hseq, heq⟩ | heq
      · exact ⟨_, heq⟩
      · obtain ⟨st', hst'⟩ := procesarDatos_total st (a :: b :: t2) hsb hbb
        exact ⟨st', heq ▸ hst'⟩

/-- C6 (witness): from the initial state — and from a populated
well-shaped table state — the step always returns a state. -/
theorem claim_C6_witness :
    (∃ st', procesarFila estadoInicial [Cell.text "Encabezado", Cell.num 1] [] = some st') ∧
    (∃ st', procesarFila { datos := [("m", SectVal.list [])], seccion := some "m", seccionId := 1, headers := ["a"], inTable := true } [Cell.num 3, Cell.num 4] [[Cell.num 5]] = some st') := by
  constructor
  · exact claim_C6_amended estadoInicial [Cell.text "Encabezado", Cell.num 1] [] (by decide)
  · exact claim_C6_amended { datos := [("m", SectVal.list [])], seccion := some "m", seccionId := 1, headers := ["a"], inTable := true } [Cell.num 3, Cell.num 4] [[Cell.num 5]] (by decide)
